import Mathlib

/-!
Verification of the bulk certificate-issuance pipeline of the
edulocka-node-express-backend repository.

The development shallowly embeds the JavaScript sources:

* `src/src/services/blockchainService.js` — `generateCertificateId`,
  `issueBatch` (explicit nonce management over a list of certificate
  records);
* `src/src/controllers/bulkController.js` — `processPipeline` (the six-phase
  batch orchestrator) and its result compilation;
* the validator module (`validateCertificate`, `validateBatch`);
* `src/src/services/ipfsService.js` — modelled through its export list,
  which is what the member access `ipfsService.computeContentHash` is
  resolved against at run time;
* `src/src/services/pdfService.js` / `qrService.js` — `bulkGeneratePDFs` and
  `bulkGenerateQR`, with the external rendering engine, content store, chain
  node, QR encoder and mailer treated as per-record environment oracles
  (exactly the collaborator boundary the code itself draws: each external
  call either returns a value or raises, and the code catches per record).

JavaScript-specific value behaviour that the control flow depends on is made
explicit: truthiness of optional strings (`strFalsy`), the `x || y` idiom on
strings and numbers (`jsStrOr`, `jsStrOrNone`, `jsNatOrNone`), and member
lookup on a module object (`ipfsServiceExports`).

Definitions come first, then the lemmas and the claim theorems.
-/

namespace Edulocka

-- ── List-with-index helper ──────────────────────────────────────────────────

/-- Map over a list with the (absolute) index of each element, starting the
index count at the given base.  Used to model JavaScript `for (let i = 0;
i < xs.length; i++)` loops that build one output per input element. -/
def mapWithIndexFrom (f : Nat → α → β) : Nat → List α → List β
  | _, [] => []
  | i, a :: as => f i a :: mapWithIndexFrom f (i + 1) as

-- ── JavaScript value helpers ────────────────────────────────────────────────

/-- Truthiness test for an optional string field: `undefined` and the empty
string are the falsy cases relevant to this code base (`!x` in JS). -/
def strFalsy : Option String → Bool
  | none => true
  | some s => s = ""

/-- The JS idiom `x || d` on a possibly-undefined string. -/
def jsStrOr (o : Option String) (d : String) : String :=
  match o with
  | none => d
  | some s => if s = "" then d else s

/-- The JS idiom `x || null` on a possibly-undefined string: both `undefined`
and the empty string become `null`. -/
def jsStrOrNone : Option String → Option String
  | none => none
  | some s => if s = "" then none else some s

/-- The JS idiom `x || null` on a possibly-undefined number: both `undefined`
and `0` become `null`. -/
def jsNatOrNone : Option Nat → Option Nat
  | none => none
  | some n => if n = 0 then none else some n

/-- Template-literal interpolation of a possibly-undefined string
(JS renders `undefined` as the string "undefined"). -/
def jsTemplate : Option String → String
  | none => "undefined"
  | some s => s

-- ── Certificate records ─────────────────────────────────────────────────────

/-- One certificate record as it flows through the bulk pipeline: the parsed
CSV fields plus the stage-result fields that `processPipeline` and the
validator write onto it (`certId`, `documentHash`, `ipfsHash`, `ipfsPinned`,
`ipfsGateway`, `ipfsError`, `_row`).  Optional string fields model
possibly-absent JS object properties. -/
structure Cert where
  studentName : Option String := none
  studentId : Option String := none
  degree : Option String := none
  institution : Option String := none
  issueDate : Option String := none
  email : Option String := none
  certId : Option String := none
  documentHash : Option String := none
  ipfsHash : Option String := none
  ipfsPinned : Bool := false
  ipfsGateway : Option String := none
  ipfsError : Option String := none
  _row : Nat := 0
deriving Repr, DecidableEq

-- ── blockchainService.generateCertificateId ─────────────────────────────────

/-- Environment of one `generateCertificateId()` call: the value returned by
the on-chain `getTotalCertificates()` view, the current calendar year, and
the string produced by `Math.random().toString(36)` (shaped like
"0.k3j2m8..." over the base-36 alphabet). -/
structure IdEnv where
  totalCertificates : Nat
  year : Nat
  mathRandom36 : String
deriving Repr

/-- JS `String.prototype.padStart(3, "0")`. -/
def padStart3 (s : String) : String :=
  if s.length ≥ 3 then s
  else String.mk (List.replicate (3 - s.length) '0') ++ s

/-- JS `s.substring(2, 5).toUpperCase()` — three UTF-16 units starting at
index 2, uppercased (the inputs here are ASCII base-36 strings). -/
def jsSub25Upper (s : String) : String :=
  String.mk (((s.data.drop 2).take 3).map Char.toUpper)

/-- Model of `generateCertificateId` (blockchainService.js lines 85-92):
sequence is the on-chain total plus one, zero-padded to width 3; the random
disambiguator is `Math.random().toString(36).substring(2, 5).toUpperCase()`. -/
def generateCertificateId (env : IdEnv) : String :=
  "CERT-" ++ toString env.year ++ "-"
    ++ padStart3 (toString (env.totalCertificates + 1)) ++ "-"
    ++ jsSub25Upper env.mathRandom36

/-- Split a character list at every dash (structurally recursive, so that
concrete identifiers evaluate inside the kernel). -/
def splitDashAux : List Char → List Char → List (List Char)
  | [], acc => [acc.reverse]
  | c :: rest, acc =>
      if c = '-' then acc.reverse :: splitDashAux rest []
      else splitDashAux rest (c :: acc)

/-- The format asserted by the claim: splitting the identifier on "-" yields
exactly the tag CERT, a year part, a sequence part, and a FOUR-character
random part. -/
def hasCertIdFormat4 (s : String) : Bool :=
  match splitDashAux s.data [] with
  | [tag, _year, _seq, rand] => tag = "CERT".data && rand.length = 4
  | _ => false

-- ── blockchainService.issueBatch ────────────────────────────────────────────

/-- What the chain node does with one record of `issueBatch` (the two await
points inside the try block of blockchainService.js lines 147-194):
* `rejected`  — `contract.issueCertificate(...)` raised before the network
  accepted the call (gas-estimation revert, serialization error, ...); the
  nonce was not consumed.  `resync` is the outcome of the recovery call
  `signer.getNonce("pending")` in the catch handler (`none` = that call
  itself raised).
* `confirmed` — the call returned a transaction handle and `tx.wait()`
  resolved with a receipt.
* `reverted`  — the call returned a transaction handle (nonce consumed) but
  `tx.wait()` raised (post-acceptance revert or await failure); control falls
  into the same catch handler, so a `resync` outcome is recorded here too. -/
inductive ChainEvent where
  | rejected (reason : String) (resync : Option Nat)
  | confirmed (txHash : String) (blockNumber : Nat) (gasUsed : Nat)
  | reverted (txHash : String) (reason : String) (resync : Option Nat)
deriving Repr, DecidableEq

/-- Whether the network accepted the submission (returned a transaction
handle), regardless of the later on-chain outcome. -/
def eventAccepted : ChainEvent → Bool
  | .rejected _ _ => false
  | .confirmed _ _ _ => true
  | .reverted _ _ _ => true

/-- Chain-stage status string the event leads to in `issueBatch`. -/
def chainStatusOf : ChainEvent → String
  | .confirmed _ _ _ => "success"
  | _ => "failed"

/-- One entry of the `results` array built by `issueBatch`. -/
structure TxResult where
  index : Nat
  certId : Option String
  status : String
  txHash : Option String := none
  blockNumber : Option Nat := none
  gasUsed : Option Nat := none
  error : Option String := none
deriving Repr, DecidableEq

/-- The result object `issueBatch` pushes for record `i` under event `e`
(`err.reason || err.message` is collapsed into the single reason string the
environment supplies). -/
def txResultOf (i : Nat) (c : Cert) : ChainEvent → TxResult
  | .confirmed h b g =>
      { index := i, certId := c.certId, status := "success",
        txHash := some h, blockNumber := some b, gasUsed := some g }
  | .rejected reason _ =>
      { index := i, certId := c.certId, status := "failed",
        error := some reason }
  | .reverted _ reason _ =>
      { index := i, certId := c.certId, status := "failed",
        error := some reason }

/-- Mutable state of the `issueBatch` loop: the manually managed nonce
cursor plus the accumulators.  The JS function returns only
`results/succeeded/failed/total`; the final value of its local `nonce`
variable is surfaced here so the nonce invariants can be stated. -/
structure IssueBatchState where
  nonce : Nat
  results : List TxResult
  succeeded : Nat
  failed : Nat
deriving Repr, DecidableEq

/-- One iteration of the `issueBatch` loop body (blockchainService.js lines
145-206).  On acceptance the cursor is incremented; in the catch handler the
cursor is re-fetched from the pending-nonce view when that re-fetch succeeds
and kept otherwise — note that the catch handler runs for post-acceptance
`tx.wait()` failures as well, after the increment already happened. -/
def issueBatchStep (i : Nat) (c : Cert) (e : ChainEvent)
    (st : IssueBatchState) : IssueBatchState :=
  match e with
  | .confirmed h b g =>
      { st with
        nonce := st.nonce + 1,
        succeeded := st.succeeded + 1,
        results := st.results ++ [txResultOf i c (.confirmed h b g)] }
  | .rejected reason r =>
      { st with
        failed := st.failed + 1,
        results := st.results ++ [txResultOf i c (.rejected reason r)],
        nonce := r.getD st.nonce }
  | .reverted h reason r =>
      { st with
        failed := st.failed + 1,
        results := st.results ++ [txResultOf i c (.reverted h reason r)],
        nonce := r.getD (st.nonce + 1) }

/-- The `for` loop of `issueBatch`, processing record `i` with environment
event `env i`. -/
def issueBatchGo (env : Nat → ChainEvent) :
    List Cert → Nat → IssueBatchState → IssueBatchState
  | [], _, st => st
  | c :: cs, i, st => issueBatchGo env cs (i + 1) (issueBatchStep i c (env i) st)

/-- Model of `issueBatch` (blockchainService.js lines 135-209).  `n0` is the
pending nonce fetched once up front (`signer.getNonce("pending")`); `env`
gives the chain node behaviour for each record in submission order.  The
progress callback only reports counters and is omitted. -/
def issueBatch (certs : List Cert) (n0 : Nat) (env : Nat → ChainEvent) :
    IssueBatchState :=
  issueBatchGo env certs 0 { nonce := n0, results := [], succeeded := 0, failed := 0 }

/-- Number of accepted submissions among the events at indices below `i`. -/
def acceptedBefore (env : Nat → ChainEvent) (i : Nat) : Nat :=
  ((List.range i).filter (fun j => eventAccepted (env j))).length

/-- A re-synchronization call at index `i` is faithful when the value it
returns is the network pending nonce as tracked from `n0`: for a
pre-acceptance failure that is `n0` plus the acceptances so far; for a
post-acceptance failure the just-consumed nonce is included. -/
def resyncFaithful (env : Nat → ChainEvent) (n0 i : Nat) : Bool :=
  match env i with
  | .rejected _ (some v) => v = n0 + acceptedBefore env i
  | .reverted _ _ (some v) => v = n0 + acceptedBefore env i + 1
  | _ => true

-- ── Validator (validateCertificate / validateBatch) ─────────────────────────

/-- One entry of the validator error/warning arrays. -/
structure Issue where
  field : String
  message : String
  row : Nat
deriving Repr, DecidableEq

/-- Return value of `validateCertificate`. -/
structure CertCheck where
  valid : Bool
  errors : List Issue
  warnings : List Issue
deriving Repr, DecidableEq

/-- Character class `[^\s@]` of the email regular expression. -/
def isEmailChar (c : Char) : Bool :=
  ¬ c.isWhitespace ∧ c ≠ '@'

/-- There is a dot somewhere in the list other than at the last position. -/
def dotNotLast : List Char → Bool
  | [] => false
  | [_] => false
  | c :: rest => c = '.' || dotNotLast rest

/-- Model of the validator email regular expression test: the string splits
at its unique at-sign into a nonempty local part and a domain part that
contains an interior dot, all characters drawn from the class excluding
whitespace and at-signs. -/
def emailRegexTest (s : String) : Bool :=
  match s.splitOn "@" with
  | [localPart, domain] =>
      localPart ≠ "" && localPart.data.all isEmailChar &&
      domain.data.all isEmailChar &&
      (match domain.data with
       | [] => false
       | _ :: tail => dotNotLast tail)
  | _ => false

/-- Whether the list starts with four decimal digits. -/
def startsFourDigits : List Char → Bool
  | c1 :: c2 :: c3 :: c4 :: _ => c1.isDigit && c2.isDigit && c3.isDigit && c4.isDigit
  | _ => false

/-- Model of the four-consecutive-digits test on the character list: some
position starts a run of four digits. -/
def hasFourDigitRun : List Char → Bool
  | [] => false
  | c :: rest => startsFourDigits (c :: rest) || hasFourDigitRun rest

/-- Required-field check used for studentId, degree and institution:
`!x || x.trim().length === 0`. -/
def missingField (v : Option String) : Bool :=
  match v with
  | none => true
  | some s => s.trim = ""

/-- Model of `validateCertificate` (validator module).  `dateOk s` stands
for `!isNaN(new Date(s).getTime())` — validity of the JS date parse, an
engine primitive supplied as an oracle.  `index` is the 0-based loop index;
rows are reported 1-based. -/
def validateCertificate (dateOk : String → Bool) (cert : Cert) (index : Nat) :
    CertCheck :=
  let row := index + 1
  let nameErrors :=
    match cert.studentName with
    | none => [Issue.mk "studentName" "Student name is required" row]
    | some s =>
        if s.trim = "" then [Issue.mk "studentName" "Student name is required" row]
        else if s.length > 200 then
          [Issue.mk "studentName" "Student name too long (max 200 chars)" row]
        else []
  let idErrors :=
    if missingField cert.studentId then [Issue.mk "studentId" "Student ID is required" row]
    else []
  let degreeErrors :=
    if missingField cert.degree then [Issue.mk "degree" "Degree/program is required" row]
    else []
  let institutionErrors :=
    if missingField cert.institution then
      [Issue.mk "institution" "Institution name is required" row]
    else []
  let dateErrors :=
    match cert.issueDate with
    | none => [Issue.mk "issueDate" "Issue date is required" row]
    | some s =>
        if s = "" then [Issue.mk "issueDate" "Issue date is required" row]
        else if dateOk s then []
        else [Issue.mk "issueDate"
          ("Invalid date format: \"" ++ s ++ "\". Use YYYY-MM-DD.") row]
  let emailWarnings :=
    match cert.email with
    | none => []
    | some s =>
        if s ≠ "" && s.trim.length > 0 then
          if emailRegexTest s then []
          else [Issue.mk "email" ("Invalid email: \"" ++ s ++ "\"") row]
        else []
  let nameWarnings :=
    match cert.studentName with
    | none => []
    | some s =>
        if s ≠ "" && hasFourDigitRun s.data then
          [Issue.mk "studentName" "Student name contains numbers — is this correct?" row]
        else []
  let errors := nameErrors ++ idErrors ++ degreeErrors ++ institutionErrors ++ dateErrors
  { valid := errors.isEmpty, errors := errors, warnings := emailWarnings ++ nameWarnings }

/-- JS `Map.set` on the seen-maps of `validateBatch`: overwrite-or-add,
modelled as a prepend whose first match wins on lookup. -/
def mapSet (m : List (String × Nat)) (k : String) (v : Nat) : List (String × Nat) :=
  (k, v) :: m

/-- JS `Map.get`: the most recently set value for the key. -/
def mapGet (m : List (String × Nat)) (k : String) : Option Nat :=
  (m.find? (fun p => p.1 = k)).map (·.2)

/-- JS `Map.has`. -/
def mapHas (m : List (String × Nat)) (k : String) : Bool :=
  (mapGet m k).isSome

/-- The duplicate-student-id warning message of `validateBatch`. -/
def dupIdMessage (s : String) (prev : Nat) : String :=
  "Duplicate student ID \"" ++ s ++ "\" (also in row " ++ toString prev ++ ")"

/-- The duplicate-email warning message of `validateBatch`. -/
def dupEmailMessage (s : String) (prev : Nat) : String :=
  "Duplicate email \"" ++ s ++ "\" (also in row " ++ toString prev ++ ")"

/-- The duplicate check performed once for `studentId` and once for `email`
in the `validateBatch` loop: when the field is truthy, a warning is emitted
if the value was seen before (mentioning the latest previous row), and the
seen-map records the current row.  Returns the updated map and the warnings
to append. -/
def dupCheck (fieldLabel : String) (mkMsg : String → Nat → String)
    (m : List (String × Nat)) (value : Option String) (i : Nat) :
    List (String × Nat) × List Issue :=
  match value with
  | none => (m, [])
  | some s =>
      if s = "" then (m, [])
      else
        let w :=
          if mapHas m s then
            [Issue.mk fieldLabel (mkMsg s ((mapGet m s).getD 0)) (i + 1)]
          else []
        (mapSet m s (i + 1), w)

/-- Accumulator state of the `validateBatch` loop. -/
structure ValState where
  seenIds : List (String × Nat)
  seenEmails : List (String × Nat)
  errors : List Issue
  warnings : List Issue
  validRecords : List Cert
  invalidRecords : List (Cert × List Issue)
deriving Repr

/-- Body of one `validateBatch` iteration over record `cert` at index `i`. -/
def validateBatchStep (dateOk : String → Bool) (cert : Cert) (i : Nat)
    (st : ValState) : ValState :=
  let check := validateCertificate dateOk cert i
  let (seenIds, wId) := dupCheck "studentId" dupIdMessage st.seenIds cert.studentId i
  let (seenEmails, wEmail) := dupCheck "email" dupEmailMessage st.seenEmails cert.email i
  { seenIds := seenIds,
    seenEmails := seenEmails,
    errors := st.errors ++ check.errors,
    warnings := st.warnings ++ wId ++ wEmail ++ check.warnings,
    validRecords :=
      if check.valid then st.validRecords ++ [{ cert with _row := i + 1 }]
      else st.validRecords,
    invalidRecords :=
      if check.valid then st.invalidRecords
      else st.invalidRecords ++ [({ cert with _row := i + 1 }, check.errors)] }

/-- The `validateBatch` loop from index `i` on, threading the accumulator. -/
def validateBatchGo (dateOk : String → Bool) :
    List Cert → Nat → ValState → ValState
  | [], _, st => st
  | c :: cs, i, st => validateBatchGo dateOk cs (i + 1) (validateBatchStep dateOk c i st)

/-- Return value of `validateBatch`. -/
structure BatchValidation where
  totalRows : Nat
  validCount : Nat
  invalidCount : Nat
  hasErrors : Bool
  errors : List Issue
  warnings : List Issue
  validRecords : List Cert
  invalidRecords : List (Cert × List Issue)
deriving Repr

/-- Model of `validateBatch`: the loop over all records with duplicate
detection, assembling the summary object. -/
def validateBatch (dateOk : String → Bool) (certificates : List Cert) :
    BatchValidation :=
  let st := validateBatchGo dateOk certificates 0
    { seenIds := [], seenEmails := [], errors := [], warnings := [],
      validRecords := [], invalidRecords := [] }
  { totalRows := certificates.length,
    validCount := st.validRecords.length,
    invalidCount := st.invalidRecords.length,
    hasErrors := st.errors.length > 0,
    errors := st.errors,
    warnings := st.warnings,
    validRecords := st.validRecords,
    invalidRecords := st.invalidRecords }

/-- Specification of the errors accumulated by the `validateBatch` loop from
index `i` on: the concatenation of the per-record errors, in order.
Cross-row duplicate detection contributes nothing here. -/
def errorsSpec (dateOk : String → Bool) : Nat → List Cert → List Issue
  | _, [] => []
  | i, c :: cs => (validateCertificate dateOk c i).errors ++ errorsSpec dateOk (i + 1) cs

/-- Specification of the valid records collected by the `validateBatch` loop
from index `i` on: each record with an empty per-record error list,
annotated with its 1-based original row. -/
def validRecordsSpec (dateOk : String → Bool) : Nat → List Cert → List Cert
  | _, [] => []
  | i, c :: cs =>
      (if (validateCertificate dateOk c i).valid then [{ c with _row := i + 1 }] else [])
        ++ validRecordsSpec dateOk (i + 1) cs

-- ── bulkController.processPipeline: phase 1 (generating_ids) ────────────────

/-- Phase 1 of `processPipeline` (bulkController.js lines 146-153): assign a
generated certificate identifier to every record whose `certId` is falsy.
`idEnv i` is the environment of the `generateCertificateId()` call made for
record `i` (chain total, year, `Math.random()` draw). -/
def generateIdsPhase (idEnv : Nat → IdEnv) (certs : List Cert) : List Cert :=
  mapWithIndexFrom
    (fun i c =>
      if strFalsy c.certId then { c with certId := some (generateCertificateId (idEnv i)) }
      else c)
    0 certs

-- ── pdfService.bulkGeneratePDFs: phase 2 (generating_pdfs) ──────────────────

/-- Outcome of the rendering attempt for one record: the Puppeteer render
plus file write succeeded with these bytes, or some step of the per-record
try block raised. -/
inductive RenderOutcome where
  | ok (pdfBytes : List Nat)
  | err (msg : String)
deriving Repr, DecidableEq

/-- One entry of the array returned by `bulkGeneratePDFs`. -/
structure PdfResult where
  certId : Option String
  status : String
  fileName : Option String := none
  filePath : Option String := none
  size : Nat := 0
  buffer : Option (List Nat) := none
  error : Option String := none
deriving Repr, DecidableEq

/-- The character class kept by the file-name sanitizer of
`bulkGeneratePDFs`: ASCII alphanumerics and whitespace. -/
def sanitizeKeep (c : Char) : Bool :=
  c.isAlpha || c.isDigit || c.isWhitespace

/-- The whitespace-run collapsing step of the sanitizer: each maximal
whitespace run becomes one underscore.  The boolean tracks whether the
previous character was part of a whitespace run. -/
def underscoreRuns : List Char → Bool → List Char
  | [], _ => []
  | c :: rest, inRun =>
      if c.isWhitespace then
        if inRun then underscoreRuns rest true
        else '_' :: underscoreRuns rest true
      else c :: underscoreRuns rest false

/-- The file-name sanitizer of `bulkGeneratePDFs`. -/
def sanitizeName (s : String) : String :=
  String.mk (underscoreRuns (s.data.filter sanitizeKeep) false)

/-- Output directory prefix used for certificate PDFs. -/
def certOutputDir : String := "output/certificates/"

/-- Model of `pdfService.bulkGeneratePDFs` (one shared browser, one result
per record, per-record try/catch).  Records reaching this phase come from
the validator and always carry a student name; `renderEnv i` decides whether
the external rendering engine produced bytes for record `i` or raised. -/
def bulkGeneratePDFs (certs : List Cert) (renderEnv : Nat → RenderOutcome) :
    List PdfResult :=
  mapWithIndexFrom
    (fun i c =>
      match renderEnv i with
      | .ok bytes =>
          let fileName := jsTemplate c.certId ++ "-" ++ sanitizeName (jsTemplate c.studentName) ++ ".pdf"
          { certId := c.certId, status := "success",
            fileName := some fileName,
            filePath := some (certOutputDir ++ fileName),
            size := bytes.length, buffer := some bytes }
      | .err m => { certId := c.certId, status := "failed", error := some m })
    0 certs

-- ── ipfsService and phase 3 (uploading_ipfs) ────────────────────────────────

/-- The names exported from `src/src/services/ipfsService.js` (its
`module.exports` object, lines 127-133).  Property access on the module
resolves against this set; `computeContentHash` is NOT among them, so
`ipfsService.computeContentHash` evaluates to `undefined` and calling it
raises a TypeError. -/
def ipfsServiceExports : List String :=
  ["uploadBuffer", "uploadFile", "uploadJSON", "getGatewayUrl", "isPinataConfigured"]

/-- Outcome of one `ipfsService.uploadBuffer` call, were it reached: the
store returned a content identifier (Pinata pin or local-hash fallback), or
it raised. -/
inductive StoreOutcome where
  | stored (hash : String) (pinned : Bool) (gateway : Option String)
  | storeError (msg : String)
deriving Repr, DecidableEq

/-- The per-record body of phase 3 of `processPipeline` (bulkController.js
lines 165-190): records whose PDF stage succeeded enter a try block that
first calls `ipfsService.computeContentHash(buffer)`, records the digest on
the record, uploads, and records the IPFS outcome; any raise inside the try
is caught and recorded as an empty `ipfsHash` plus `ipfsError`.  Member
lookup of `computeContentHash` on the module is modelled by membership in
`ipfsServiceExports`; `sha` is the digest function the absent export was
meant to be. -/
def uploadPhaseRecord (sha : List Nat → String) (store : StoreOutcome)
    (c : Cert) (pr : PdfResult) : Cert :=
  if pr.status = "success" ∧ pr.buffer.isSome then
    if "computeContentHash" ∈ ipfsServiceExports then
      match pr.buffer with
      | some buf =>
          let digest := sha buf
          let c1 := { c with documentHash := some digest }
          match store with
          | .stored h pinned gw =>
              { c1 with ipfsHash := some h, ipfsPinned := pinned, ipfsGateway := gw }
          | .storeError m => { c1 with ipfsHash := some "", ipfsError := some m }
      | none => c
    else
      { c with
        ipfsHash := some "",
        ipfsError := some "ipfsService.computeContentHash is not a function" }
  else c

/-- Phase 3 of `processPipeline`: the loop over all records, reading this
record's PDF result by index. -/
def uploadPhase (sha : List Nat → String) (storeEnv : Nat → StoreOutcome)
    (certs : List Cert) (pdfResults : List PdfResult) : List Cert :=
  mapWithIndexFrom
    (fun i c =>
      match pdfResults[i]? with
      | some pr => uploadPhaseRecord sha (storeEnv i) c pr
      | none => c)
    0 certs

-- ── qrService.bulkGenerateQR: phase 5 (generating_qrcodes) ──────────────────

/-- Outcome of one QR encode-and-save attempt. -/
inductive QrOutcome where
  | ok (size : Nat)
  | err (msg : String)
deriving Repr, DecidableEq

/-- One entry of the array returned by `bulkGenerateQR`. -/
structure QrResult where
  certId : Option String
  status : String
  fileName : Option String := none
  filePath : Option String := none
  size : Nat := 0
  error : Option String := none
deriving Repr, DecidableEq

/-- Output directory prefix used for QR PNGs. -/
def qrOutputDir : String := "output/qrcodes/"

/-- Model of `qrService.bulkGenerateQR` as called by the pipeline (no
`labeled` option): file name is the certificate id plus ".png"; each record
is encoded and saved or fails independently. -/
def bulkGenerateQR (certs : List Cert) (qrEnv : Nat → QrOutcome) : List QrResult :=
  mapWithIndexFrom
    (fun i c =>
      match qrEnv i with
      | .ok size =>
          let fileName := jsTemplate c.certId ++ ".png"
          { certId := c.certId, status := "success",
            fileName := some fileName,
            filePath := some (qrOutputDir ++ fileName), size := size }
      | .err m => { certId := c.certId, status := "failed", error := some m })
    0 certs

/-- The filter before phase 5 (bulkController.js line 202): records whose
entry in the blockchain results, looked up by position, has status
"success". -/
def filterByChainSuccess (certs : List Cert) (bcResults : List TxResult) : List Cert :=
  ((certs.zip bcResults).filter (fun p => p.2.status = "success")).map (·.1)

-- ── phase 6 (sending_emails) ────────────────────────────────────────────────

/-- The sent/failed counters of `emailService.bulkSendEmails`. -/
structure EmailSummary where
  sent : Nat
  failed : Nat
deriving Repr, DecidableEq

/-- Phase 6 of `processPipeline`: only when enabled and configured; the jobs
are the chain-successful records that carry a truthy email, and `emailEnv i`
tells whether delivery of the i-th job succeeded (`sendCertificateEmail`
never throws; it resolves to a sent flag). -/
def pipelineEmails (sendEmails emailConfigured : Bool)
    (successfulCerts : List Cert) (emailEnv : Nat → Bool) : Option EmailSummary :=
  if sendEmails && emailConfigured then
    let targets := successfulCerts.filter (fun c => ¬ strFalsy c.email)
    let sent := ((List.range targets.length).filter (fun i => emailEnv i)).length
    some { sent := sent, failed := targets.length - sent }
  else none

-- ── result compilation and the full pipeline ────────────────────────────────

/-- One entry of the final `results` array compiled at the end of
`processPipeline` (bulkController.js lines 229-267), with the nested
`blockchain`/`pdf`/`ipfs`/`qr` objects flattened into prefixed fields. -/
structure RecordResult where
  row : Nat
  certId : Option String
  studentName : Option String
  studentId : Option String
  degree : Option String
  institution : Option String
  issueDate : Option String
  email : Option String
  bcStatus : String
  txHash : Option String
  blockNumber : Option Nat
  gasUsed : Option Nat
  bcError : Option String
  pdfStatus : String
  pdfFileName : Option String
  pdfFilePath : Option String
  ipfsHash : Option String
  documentHash : Option String
  ipfsPinned : Bool
  ipfsGateway : Option String
  qrStatus : String
  qrFileName : Option String
deriving Repr, DecidableEq

/-- The body of the final-results loop for one record: joins the blockchain
and PDF outcomes by position and the QR outcome by certificate id, with the
JS `||` defaulting ("skipped", `null`). -/
def compileRecord (bcResults : List TxResult) (pdfResults : List PdfResult)
    (qrResults : List QrResult) (i : Nat) (cert : Cert) : RecordResult :=
      let bcResult := bcResults[i]?
      let pdfResult := pdfResults[i]?
      let qrResult := qrResults.find? (fun q => q.certId = cert.certId)
      { row := cert._row,
        certId := cert.certId,
        studentName := cert.studentName,
        studentId := cert.studentId,
        degree := cert.degree,
        institution := cert.institution,
        issueDate := cert.issueDate,
        email := jsStrOrNone cert.email,
        bcStatus := jsStrOr (bcResult.map (·.status)) "skipped",
        txHash := jsStrOrNone (bcResult.bind (·.txHash)),
        blockNumber := jsNatOrNone (bcResult.bind (·.blockNumber)),
        gasUsed := jsNatOrNone (bcResult.bind (·.gasUsed)),
        bcError := jsStrOrNone (bcResult.bind (·.error)),
        pdfStatus := jsStrOr (pdfResult.map (·.status)) "skipped",
        pdfFileName := jsStrOrNone (pdfResult.bind (·.fileName)),
        pdfFilePath := jsStrOrNone (pdfResult.bind (·.filePath)),
        ipfsHash := jsStrOrNone cert.ipfsHash,
        documentHash := jsStrOrNone cert.documentHash,
        ipfsPinned := cert.ipfsPinned,
        ipfsGateway := jsStrOrNone cert.ipfsGateway,
        qrStatus := jsStrOr (qrResult.map (·.status)) "skipped",
        qrFileName := jsStrOrNone (qrResult.bind (·.fileName)) }

/-- The final-results loop of `processPipeline` (bulkController.js lines
229-267): one entry per record. -/
def compileResults (certs : List Cert) (bcResults : List TxResult)
    (pdfResults : List PdfResult) (qrResults : List QrResult) : List RecordResult :=
  mapWithIndexFrom (compileRecord bcResults pdfResults qrResults) 0 certs

/-- Per-job summary compiled at the end of `processPipeline`. -/
structure JobSummary where
  total : Nat
  blockchainSuccess : Nat
  blockchainFailed : Nat
  pdfsGenerated : Nat
  qrCodesGenerated : Nat
  emailsSent : Nat
  emailsFailed : Nat
deriving Repr, DecidableEq

/-- Terminal job state written by `processPipeline`. -/
structure JobFinal where
  status : String
  results : List RecordResult
  summary : JobSummary
deriving Repr, DecidableEq

/-- All external-collaborator behaviour of one pipeline run. -/
structure PipelineEnv where
  idEnv : Nat → IdEnv
  renderEnv : Nat → RenderOutcome
  sha256hex : List Nat → String
  storeEnv : Nat → StoreOutcome
  nonce0 : Nat
  chainEnv : Nat → ChainEvent
  qrEnv : Nat → QrOutcome
  sendEmails : Bool
  emailConfigured : Bool
  emailEnv : Nat → Bool

/-- The record list after phase 1 (`certs` after id assignment). -/
def pipelineCerts1 (env : PipelineEnv) (records : List Cert) : List Cert :=
  generateIdsPhase env.idEnv records

/-- The `pdfResults` array of phase 2. -/
def pipelinePdfResults (env : PipelineEnv) (records : List Cert) : List PdfResult :=
  bulkGeneratePDFs (pipelineCerts1 env records) env.renderEnv

/-- The record list after phase 3 (`certs` after the IPFS loop mutated it). -/
def pipelineCerts2 (env : PipelineEnv) (records : List Cert) : List Cert :=
  uploadPhase env.sha256hex env.storeEnv (pipelineCerts1 env records)
    (pipelinePdfResults env records)

/-- The `blockchainResults` of phase 4. -/
def pipelineBc (env : PipelineEnv) (records : List Cert) : IssueBatchState :=
  issueBatch (pipelineCerts2 env records) env.nonce0 env.chainEnv

/-- The `successfulCerts` filter before phase 5. -/
def pipelineSuccessful (env : PipelineEnv) (records : List Cert) : List Cert :=
  filterByChainSuccess (pipelineCerts2 env records) (pipelineBc env records).results

/-- The `qrResults` of phase 5. -/
def pipelineQrResults (env : PipelineEnv) (records : List Cert) : List QrResult :=
  bulkGenerateQR (pipelineSuccessful env records) env.qrEnv

/-- Model of `processPipeline` (bulkController.js lines 142-292) on a run in
which no phase-level exception escapes: the six phases in order over the
job's (validated) records, followed by result compilation; per-record
failures are data, and the job is marked "completed" unconditionally at the
end.  Progress-descriptor writes and the upload-file cleanup have no effect
on the terminal state and are omitted. -/
def processPipeline (env : PipelineEnv) (records : List Cert) : JobFinal :=
  let pdfResults := pipelinePdfResults env records
  let certs2 := pipelineCerts2 env records
  let bc := pipelineBc env records
  let successfulCerts := pipelineSuccessful env records
  let qrResults := pipelineQrResults env records
  let emailResults := pipelineEmails env.sendEmails env.emailConfigured successfulCerts env.emailEnv
  let results := compileResults certs2 bc.results pdfResults qrResults
  { status := "completed",
    results := results,
    summary :=
      { total := certs2.length,
        blockchainSuccess := bc.succeeded,
        blockchainFailed := bc.failed,
        pdfsGenerated := (pdfResults.filter (fun p => p.status = "success")).length,
        qrCodesGenerated := (qrResults.filter (fun q => q.status = "success")).length,
        emailsSent := (emailResults.map (·.sent)).getD 0,
        emailsFailed := (emailResults.map (·.failed)).getD 0 } }

-- ── Concrete sample inputs used by witnesses and counterexamples ────────────

/-- A well-formed record as produced by the validator. -/
def cAlice : Cert :=
  { studentName := some "Alice Smith", studentId := some "S001",
    degree := some "BSc Computer Science", institution := some "Test University",
    issueDate := some "2024-06-01", email := some "alice@example.com", _row := 1 }

/-- A second well-formed record. -/
def cBob : Cert :=
  { studentName := some "Bob Jones", studentId := some "S002",
    degree := some "BA History", institution := some "Test University",
    issueDate := some "2024-06-01", email := some "bob@example.com", _row := 2 }

/-- A record sharing the student id and email of `cAlice` (cross-row
duplicate). -/
def cAliceTwin : Cert :=
  { studentName := some "Alice Smith", studentId := some "S001",
    degree := some "MSc Mathematics", institution := some "Test University",
    issueDate := some "2024-06-02", email := some "alice@example.com", _row := 3 }

/-- A record that already carries a certificate identifier. -/
def cWithId : Cert :=
  { studentName := some "Carol Reed", studentId := some "S003",
    degree := some "PhD Physics", institution := some "Test University",
    issueDate := some "2024-06-01", certId := some "CERT-2024-007-ZZZ", _row := 1 }

/-- Chain behaviour for the C1 witness: record 1 fails before acceptance and
the recovery nonce fetch returns the true pending value; records 0 and 2 are
accepted and confirmed. -/
def envW1 : Nat → ChainEvent := fun i =>
  if i = 1 then ChainEvent.rejected "gas estimation reverted" (some 6)
  else ChainEvent.confirmed "0xabc" 100 21000

/-- An id-generation environment. -/
def idEnvW : Nat → IdEnv := fun _ =>
  { totalCertificates := 3, year := 2025, mathRandom36 := "0.xy9k2m" }

/-- The id-generation environment of the C7 counterexample. -/
def idEnvCex : IdEnv :=
  { totalCertificates := 0, year := 2026, mathRandom36 := "0.abcdefgh" }

/-- Pipeline environment of the C3 counterexample: the single record's PDF
rendering fails, yet the chain node accepts and confirms its submission. -/
def envC3 : PipelineEnv :=
  { idEnv := fun _ => { totalCertificates := 0, year := 2025, mathRandom36 := "0.abc123" },
    renderEnv := fun _ => RenderOutcome.err "render failed",
    sha256hex := fun _ => "d00dfeed",
    storeEnv := fun _ => StoreOutcome.storeError "store unreachable",
    nonce0 := 0,
    chainEnv := fun _ => ChainEvent.confirmed "0xfeed" 123 21000,
    qrEnv := fun _ => QrOutcome.ok 400,
    sendEmails := false,
    emailConfigured := false,
    emailEnv := fun _ => true }

/-- A PDF result whose render succeeded, used by the C4 witness. -/
def pdfOkSample : PdfResult :=
  { certId := some "CERT-2025-001-ABC", status := "success",
    fileName := some "CERT-2025-001-ABC-Alice_Smith.pdf",
    filePath := some "output/certificates/CERT-2025-001-ABC-Alice_Smith.pdf",
    size := 3, buffer := some [37, 80, 68] }

/-- Pipeline environment of the C8 counterexample: both records draw the
same random string during id generation, so phase 1 assigns them the same
certificate identifier; record 0 succeeds on chain, record 1 fails. -/
def envC8 : PipelineEnv :=
  { idEnv := fun _ => { totalCertificates := 0, year := 2025, mathRandom36 := "0.abc123" },
    renderEnv := fun _ => RenderOutcome.ok [37, 80],
    sha256hex := fun _ => "d00dfeed",
    storeEnv := fun _ => StoreOutcome.storeError "store unreachable",
    nonce0 := 0,
    chainEnv := fun i =>
      if i = 0 then ChainEvent.confirmed "0xaaa" 10 21000
      else ChainEvent.rejected "insufficient funds" (some 1),
    qrEnv := fun _ => QrOutcome.ok 400,
    sendEmails := false,
    emailConfigured := false,
    emailEnv := fun _ => true }

/-- Pipeline environment of the C8 witness: distinct random draws give the
two records distinct identifiers; record 1 fails before acceptance. -/
def envW8 : PipelineEnv :=
  { idEnv := fun i =>
      { totalCertificates := 0, year := 2025,
        mathRandom36 := if i = 0 then "0.aaa111" else "0.bbb222" },
    renderEnv := fun _ => RenderOutcome.ok [37, 80],
    sha256hex := fun _ => "d00dfeed",
    storeEnv := fun _ => StoreOutcome.storeError "store unreachable",
    nonce0 := 0,
    chainEnv := fun i =>
      if i = 0 then ChainEvent.confirmed "0xaaa" 10 21000
      else ChainEvent.rejected "insufficient funds" (some 1),
    qrEnv := fun _ => QrOutcome.ok 400,
    sendEmails := false,
    emailConfigured := false,
    emailEnv := fun _ => true }

/-- The date-parse oracle used in validator witnesses. -/
def dateOkW : String → Bool := fun _ => true

-- ── Lemmas: indexed map ─────────────────────────────────────────────────────

theorem mapWithIndexFrom_length (f : Nat → α → β) (i : Nat) (l : List α) :
    (mapWithIndexFrom f i l).length = l.length := by
  induction l generalizing i with
  | nil => rfl
  | cons a as ih => simp [mapWithIndexFrom, ih]

theorem mapWithIndexFrom_getElem? (f : Nat → α → β) (i j : Nat) (l : List α) :
    (mapWithIndexFrom f i l)[j]? = (l[j]?).map (f (i + j)) := by
  induction l generalizing i j with
  | nil => simp [mapWithIndexFrom]
  | cons a as ih =>
    cases j with
    | zero => simp [mapWithIndexFrom]
    | succ j =>
      simp only [mapWithIndexFrom, List.getElem?_cons_succ]
      rw [ih]
      have hidx : i + 1 + j = i + (j + 1) := by omega
      rw [hidx]

-- ── Lemmas: issueBatch nonce cursor and results ─────────────────────────────

theorem acceptedBefore_succ (env : Nat → ChainEvent) (i : Nat) :
    acceptedBefore env (i + 1) =
      acceptedBefore env i + (if eventAccepted (env i) then 1 else 0) := by
  unfold acceptedBefore
  rw [List.range_succ, List.filter_append, List.length_append]
  by_cases h : eventAccepted (env i) <;> simp [h]

theorem issueBatchGo_nonce (env : Nat → ChainEvent) (n0 : Nat)
    (certs : List Cert) :
    ∀ i st, st.nonce = n0 + acceptedBefore env i →
      (∀ j, i ≤ j → j < i + certs.length → resyncFaithful env n0 j) →
      (issueBatchGo env certs i st).nonce = n0 + acceptedBefore env (i + certs.length) := by
  induction certs with
  | nil => intro i st h _; simpa [issueBatchGo] using h
  | cons c cs ih =>
    intro i st h hf
    have hfi : resyncFaithful env n0 i := hf i (Nat.le_refl i) (by simp)
    have hstep : (issueBatchStep i c (env i) st).nonce = n0 + acceptedBefore env (i + 1) := by
      rw [acceptedBefore_succ]
      unfold resyncFaithful at hfi
      cases hev : env i with
      | confirmed hsh b g => simp [issueBatchStep, h, hev, eventAccepted]; omega
      | rejected reason r =>
        cases r with
        | none => simp [issueBatchStep, h, hev, eventAccepted]
        | some v =>
          rw [hev] at hfi
          simp only [decide_eq_true_eq] at hfi
          simp [issueBatchStep, hev, eventAccepted, hfi]
      | reverted hsh reason r =>
        cases r with
        | none => simp [issueBatchStep, h, hev, eventAccepted]; omega
        | some v =>
          rw [hev] at hfi
          simp only [decide_eq_true_eq] at hfi
          simp [issueBatchStep, hev, eventAccepted, hfi]
          omega
    have := ih (i + 1) (issueBatchStep i c (env i) st) hstep
      (fun j hj1 hj2 => hf j (by omega) (by simpa [Nat.add_comm, Nat.add_assoc] using by omega))
    simpa [issueBatchGo, Nat.add_comm, Nat.add_assoc, Nat.add_left_comm] using this

theorem issueBatchStep_results (i : Nat) (c : Cert) (e : ChainEvent)
    (st : IssueBatchState) :
    (issueBatchStep i c e st).results = st.results ++ [txResultOf i c e] := by
  cases e <;> rfl

theorem issueBatchGo_results (env : Nat → ChainEvent) (certs : List Cert) :
    ∀ i st, (issueBatchGo env certs i st).results =
      st.results ++ mapWithIndexFrom (fun j c => txResultOf j c (env j)) i certs := by
  induction certs with
  | nil => intro i st; simp [issueBatchGo, mapWithIndexFrom]
  | cons c cs ih =>
    intro i st
    simp [issueBatchGo, mapWithIndexFrom, ih, issueBatchStep_results]

/-- The `results` array of `issueBatch` holds, in order, exactly one entry
per input record, determined by that record and its chain event. -/
theorem issueBatch_results (certs : List Cert) (n0 : Nat) (env : Nat → ChainEvent) :
    (issueBatch certs n0 env).results =
      mapWithIndexFrom (fun j c => txResultOf j c (env j)) 0 certs := by
  simp [issueBatch, issueBatchGo_results]

theorem issueBatch_results_length (certs : List Cert) (n0 : Nat)
    (env : Nat → ChainEvent) :
    (issueBatch certs n0 env).results.length = certs.length := by
  rw [issueBatch_results, mapWithIndexFrom_length]

-- ── Lemmas: the validateBatch loop ──────────────────────────────────────────

theorem validateBatchStep_errors (dateOk : String → Bool) (c : Cert) (i : Nat)
    (st : ValState) :
    (validateBatchStep dateOk c i st).errors =
      st.errors ++ (validateCertificate dateOk c i).errors := by
  unfold validateBatchStep
  cases h1 : dupCheck "studentId" dupIdMessage st.seenIds c.studentId i
  cases h2 : dupCheck "email" dupEmailMessage st.seenEmails c.email i
  simp

theorem validateBatchStep_validRecords (dateOk : String → Bool) (c : Cert) (i : Nat)
    (st : ValState) :
    (validateBatchStep dateOk c i st).validRecords =
      st.validRecords ++
        (if (validateCertificate dateOk c i).valid then [{ c with _row := i + 1 }] else []) := by
  unfold validateBatchStep
  cases h1 : dupCheck "studentId" dupIdMessage st.seenIds c.studentId i
  cases h2 : dupCheck "email" dupEmailMessage st.seenEmails c.email i
  by_cases hv : (validateCertificate dateOk c i).valid <;> simp [hv]

theorem validateBatchStep_warnings (dateOk : String → Bool) (c : Cert) (i : Nat)
    (st : ValState) :
    (validateBatchStep dateOk c i st).warnings =
      st.warnings ++ (dupCheck "studentId" dupIdMessage st.seenIds c.studentId i).2
        ++ (dupCheck "email" dupEmailMessage st.seenEmails c.email i).2
        ++ (validateCertificate dateOk c i).warnings := by
  unfold validateBatchStep
  cases h1 : dupCheck "studentId" dupIdMessage st.seenIds c.studentId i
  cases h2 : dupCheck "email" dupEmailMessage st.seenEmails c.email i
  simp [h1, h2]

theorem validateBatchStep_seenIds (dateOk : String → Bool) (c : Cert) (i : Nat)
    (st : ValState) :
    (validateBatchStep dateOk c i st).seenIds =
      (dupCheck "studentId" dupIdMessage st.seenIds c.studentId i).1 := by
  unfold validateBatchStep
  cases h1 : dupCheck "studentId" dupIdMessage st.seenIds c.studentId i
  cases h2 : dupCheck "email" dupEmailMessage st.seenEmails c.email i
  simp [h1]

theorem validateBatchStep_seenEmails (dateOk : String → Bool) (c : Cert) (i : Nat)
    (st : ValState) :
    (validateBatchStep dateOk c i st).seenEmails =
      (dupCheck "email" dupEmailMessage st.seenEmails c.email i).1 := by
  unfold validateBatchStep
  cases h1 : dupCheck "studentId" dupIdMessage st.seenIds c.studentId i
  cases h2 : dupCheck "email" dupEmailMessage st.seenEmails c.email i
  simp [h2]

theorem validateBatchGo_errors (dateOk : String → Bool) (certs : List Cert) :
    ∀ i st, (validateBatchGo dateOk certs i st).errors = st.errors ++ errorsSpec dateOk i certs := by
  induction certs with
  | nil => intro i st; simp [validateBatchGo, errorsSpec]
  | cons c cs ih =>
    intro i st
    simp [validateBatchGo, errorsSpec, ih, validateBatchStep_errors]

theorem validateBatchGo_validRecords (dateOk : String → Bool) (certs : List Cert) :
    ∀ i st, (validateBatchGo dateOk certs i st).validRecords =
      st.validRecords ++ validRecordsSpec dateOk i certs := by
  induction certs with
  | nil => intro i st; simp [validateBatchGo, validRecordsSpec]
  | cons c cs ih =>
    intro i st
    simp [validateBatchGo, validRecordsSpec, ih, validateBatchStep_validRecords]

theorem validateBatchGo_warnings_mono (dateOk : String → Bool) (certs : List Cert) :
    ∀ i st x, x ∈ st.warnings → x ∈ (validateBatchGo dateOk certs i st).warnings := by
  induction certs with
  | nil => intro i st x hx; simpa [validateBatchGo] using hx
  | cons c cs ih =>
    intro i st x hx
    refine ih (i + 1) _ x ?_
    rw [validateBatchStep_warnings]
    simp [hx]

theorem mapHas_mapSet (m : List (String × Nat)) (k k' : String) (v : Nat) :
    mapHas m k → mapHas (mapSet m k' v) k := by
  intro h
  unfold mapHas mapGet mapSet at *
  cases hf : m.find? (fun p => p.1 = k) with
  | none => simp [hf] at h
  | some p =>
    by_cases hk : k' = k <;> simp [List.find?, hk, hf]

theorem mapHas_dupCheck_mono (fieldLabel : String) (mkMsg : String → Nat → String)
    (m : List (String × Nat)) (value : Option String) (i : Nat) (k : String) :
    mapHas m k → mapHas (dupCheck fieldLabel mkMsg m value i).1 k := by
  intro h
  unfold dupCheck
  cases value with
  | none => exact h
  | some s =>
    by_cases hs : s = ""
    · simp [hs, h]
    · simp only [hs, if_neg]
      simpa using mapHas_mapSet m k s (i + 1) h

theorem mapHas_dupCheck_set (fieldLabel : String) (mkMsg : String → Nat → String)
    (m : List (String × Nat)) (s : String) (i : Nat) (hs : s ≠ "") :
    mapHas (dupCheck fieldLabel mkMsg m (some s) i).1 s := by
  unfold dupCheck mapHas mapGet mapSet
  simp [hs, List.find?]

theorem validateBatchGo_seenIds_mono (dateOk : String → Bool) (certs : List Cert) :
    ∀ i st s, mapHas st.seenIds s → mapHas (validateBatchGo dateOk certs i st).seenIds s := by
  induction certs with
  | nil => intro i st s h; simpa [validateBatchGo] using h
  | cons c cs ih =>
    intro i st s h
    refine ih (i + 1) _ s ?_
    rw [validateBatchStep_seenIds]
    exact mapHas_dupCheck_mono _ _ _ _ _ _ h

theorem validateBatchGo_seenEmails_mono (dateOk : String → Bool) (certs : List Cert) :
    ∀ i st s, mapHas st.seenEmails s → mapHas (validateBatchGo dateOk certs i st).seenEmails s := by
  induction certs with
  | nil => intro i st s h; simpa [validateBatchGo] using h
  | cons c cs ih =>
    intro i st s h
    refine ih (i + 1) _ s ?_
    rw [validateBatchStep_seenEmails]
    exact mapHas_dupCheck_mono _ _ _ _ _ _ h

/-- After the loop has processed a record whose (truthy) student id is `s`,
the id is registered in the seen-map of the resulting state. -/
theorem validateBatchGo_seenIds_of_mem (dateOk : String → Bool) (s : String)
    (certs : List Cert) :
    ∀ (i : Nat) (st : ValState) (j : Nat) (c : Cert),
      certs[j]? = some c → c.studentId = some s → s ≠ "" →
      mapHas (validateBatchGo dateOk certs i st).seenIds s := by
  induction certs with
  | nil => intro i st j c hc; simp at hc
  | cons c0 cs ih =>
    intro i st j c hc hid hs
    cases j with
    | zero =>
      simp at hc
      subst hc
      refine validateBatchGo_seenIds_mono dateOk cs (i + 1) _ s ?_
      rw [validateBatchStep_seenIds, hid]
      exact mapHas_dupCheck_set _ _ _ _ _ hs
    | succ j =>
      simp only [List.getElem?_cons_succ] at hc
      exact ih (i + 1) _ j c hc hid hs

/-- After the loop has processed a record whose (truthy) email is `s`, the
email is registered in the seen-map of the resulting state. -/
theorem validateBatchGo_seenEmails_of_mem (dateOk : String → Bool) (s : String)
    (certs : List Cert) :
    ∀ (i : Nat) (st : ValState) (j : Nat) (c : Cert),
      certs[j]? = some c → c.email = some s → s ≠ "" →
      mapHas (validateBatchGo dateOk certs i st).seenEmails s := by
  induction certs with
  | nil => intro i st j c hc; simp at hc
  | cons c0 cs ih =>
    intro i st j c hc hid hs
    cases j with
    | zero =>
      simp at hc
      subst hc
      refine validateBatchGo_seenEmails_mono dateOk cs (i + 1) _ s ?_
      rw [validateBatchStep_seenEmails, hid]
      exact mapHas_dupCheck_set _ _ _ _ _ hs
    | succ j =>
      simp only [List.getElem?_cons_succ] at hc
      exact ih (i + 1) _ j c hc hid hs

/-- The loop over `l1 ++ l2` is the loop over `l2` started from the state
the loop over `l1` produced. -/
theorem validateBatchGo_append (dateOk : String → Bool) (l1 l2 : List Cert) :
    ∀ i st, validateBatchGo dateOk (l1 ++ l2) i st =
      validateBatchGo dateOk l2 (i + l1.length) (validateBatchGo dateOk l1 i st) := by
  induction l1 with
  | nil => intro i st; simp [validateBatchGo]
  | cons c cs ih =>
    intro i st
    have h1 : validateBatchGo dateOk ((c :: cs) ++ l2) i st
        = validateBatchGo dateOk (cs ++ l2) (i + 1) (validateBatchStep dateOk c i st) := rfl
    have h2 : validateBatchGo dateOk (c :: cs) i st
        = validateBatchGo dateOk cs (i + 1) (validateBatchStep dateOk c i st) := rfl
    rw [h1, ih, h2]
    simp only [List.length_cons]
    have hlen : i + 1 + cs.length = i + (cs.length + 1) := by omega
    rw [hlen]

theorem dupCheck_warn (fieldLabel : String) (mkMsg : String → Nat → String)
    (m : List (String × Nat)) (s : String) (i : Nat) (hs : s ≠ "")
    (hhas : mapHas m s) :
    (dupCheck fieldLabel mkMsg m (some s) i).2 =
      [Issue.mk fieldLabel (mkMsg s ((mapGet m s).getD 0)) (i + 1)] := by
  unfold dupCheck
  simp [hs, hhas]

-- ── Lemmas: pipeline phases and result compilation ──────────────────────────

theorem processPipeline_results (env : PipelineEnv) (records : List Cert) :
    (processPipeline env records).results =
      compileResults (pipelineCerts2 env records) (pipelineBc env records).results
        (pipelinePdfResults env records) (pipelineQrResults env records) := rfl

theorem processPipeline_status (env : PipelineEnv) (records : List Cert) :
    (processPipeline env records).status = "completed" := rfl

/-- Every member of an indexed map comes from some input position. -/
theorem mem_mapWithIndexFrom {f : Nat → α → β} {b : β} :
    ∀ {i : Nat} {l : List α}, b ∈ mapWithIndexFrom f i l →
      ∃ j a, l[j]? = some a ∧ b = f (i + j) a := by
  intro i l
  induction l generalizing i with
  | nil => intro h; simp [mapWithIndexFrom] at h
  | cons a as ih =>
    intro h
    rcases List.mem_cons.mp h with h0 | h1
    · exact ⟨0, a, by simp, by simpa using h0⟩
    · obtain ⟨j, x, hx, hb⟩ := ih h1
      refine ⟨j + 1, x, by simpa using hx, ?_⟩
      rw [hb]
      congr 1
      omega

theorem generateIdsPhase_length (e : Nat → IdEnv) (certs : List Cert) :
    (generateIdsPhase e certs).length = certs.length := by
  unfold generateIdsPhase; rw [mapWithIndexFrom_length]

theorem generateIdsPhase_getElem? (e : Nat → IdEnv) (certs : List Cert) (i : Nat) :
    (generateIdsPhase e certs)[i]? =
      (certs[i]?).map (fun c =>
        if strFalsy c.certId then { c with certId := some (generateCertificateId (e i)) }
        else c) := by
  unfold generateIdsPhase
  rw [mapWithIndexFrom_getElem?]
  simp

theorem uploadPhaseRecord_certId (sha : List Nat → String) (o : StoreOutcome)
    (c : Cert) (pr : PdfResult) :
    (uploadPhaseRecord sha o c pr).certId = c.certId := by
  unfold uploadPhaseRecord
  by_cases h : pr.status = "success" ∧ pr.buffer.isSome
  · cases hb : pr.buffer with
    | none => simp [h, hb]
    | some buf =>
      by_cases hm : "computeContentHash" ∈ ipfsServiceExports <;>
        cases o <;> simp [h, hb, hm]
  · simp [h]

theorem uploadPhaseRecord_row (sha : List Nat → String) (o : StoreOutcome)
    (c : Cert) (pr : PdfResult) :
    (uploadPhaseRecord sha o c pr)._row = c._row := by
  unfold uploadPhaseRecord
  by_cases h : pr.status = "success" ∧ pr.buffer.isSome
  · cases hb : pr.buffer with
    | none => simp [h, hb]
    | some buf =>
      by_cases hm : "computeContentHash" ∈ ipfsServiceExports <;>
        cases o <;> simp [h, hb, hm]
  · simp [h]

theorem uploadPhase_length (sha : List Nat → String) (storeEnv : Nat → StoreOutcome)
    (certs : List Cert) (prs : List PdfResult) :
    (uploadPhase sha storeEnv certs prs).length = certs.length := by
  unfold uploadPhase; rw [mapWithIndexFrom_length]

theorem uploadPhase_getElem? (sha : List Nat → String) (storeEnv : Nat → StoreOutcome)
    (certs : List Cert) (prs : List PdfResult) (i : Nat) :
    (uploadPhase sha storeEnv certs prs)[i]? =
      (certs[i]?).map (fun c =>
        match prs[i]? with
        | some pr => uploadPhaseRecord sha (storeEnv i) c pr
        | none => c) := by
  unfold uploadPhase
  rw [mapWithIndexFrom_getElem?]
  simp

theorem uploadPhase_certId (sha : List Nat → String) (storeEnv : Nat → StoreOutcome)
    (certs : List Cert) (prs : List PdfResult) (i : Nat) :
    ((uploadPhase sha storeEnv certs prs)[i]?).map (·.certId) =
      (certs[i]?).map (·.certId) := by
  rw [uploadPhase_getElem?]
  cases hc : certs[i]? with
  | none => rfl
  | some c =>
    cases hp : prs[i]? with
    | none => simp
    | some pr => simp [uploadPhaseRecord_certId]

theorem uploadPhase_row (sha : List Nat → String) (storeEnv : Nat → StoreOutcome)
    (certs : List Cert) (prs : List PdfResult) (i : Nat) :
    ((uploadPhase sha storeEnv certs prs)[i]?).map (·._row) =
      (certs[i]?).map (·._row) := by
  rw [uploadPhase_getElem?]
  cases hc : certs[i]? with
  | none => rfl
  | some c =>
    cases hp : prs[i]? with
    | none => simp
    | some pr => simp [uploadPhaseRecord_row]

theorem generateIdsPhase_row (e : Nat → IdEnv) (certs : List Cert) (i : Nat) :
    ((generateIdsPhase e certs)[i]?).map (·._row) = (certs[i]?).map (·._row) := by
  rw [generateIdsPhase_getElem?]
  cases hc : certs[i]? with
  | none => rfl
  | some c => by_cases h : strFalsy c.certId <;> simp [h]

theorem compileResults_length (certs : List Cert) (bc : List TxResult)
    (prs : List PdfResult) (qrs : List QrResult) :
    (compileResults certs bc prs qrs).length = certs.length := by
  unfold compileResults; rw [mapWithIndexFrom_length]

theorem txResultOf_status (i : Nat) (c : Cert) (e : ChainEvent) :
    (txResultOf i c e).status = chainStatusOf e := by
  cases e <;> rfl

theorem chainStatusOf_ne_empty (e : ChainEvent) : chainStatusOf e ≠ "" := by
  cases e <;> simp [chainStatusOf]

theorem issueBatch_results_getElem? (certs : List Cert) (n0 : Nat)
    (env : Nat → ChainEvent) (i : Nat) :
    (issueBatch certs n0 env).results[i]? =
      (certs[i]?).map (fun c => txResultOf i c (env i)) := by
  rw [issueBatch_results, mapWithIndexFrom_getElem?]
  simp

theorem generateCertificateId_ne_empty (e : IdEnv) : generateCertificateId e ≠ "" := by
  intro h
  have hlen := congrArg String.length h
  rw [generateCertificateId] at hlen
  rw [String.length_append, String.length_append, String.length_append,
    String.length_append, String.length_append] at hlen
  have h5 : ("CERT-" : String).length = 5 := by decide
  have h0 : ("" : String).length = 0 := by decide
  omega

-- ── Claim theorems ──────────────────────────────────────────────────────────

/-- C1: over one `issueBatch` run the nonce cursor is fetched from the
network once (`n0`), incremented by one exactly on each submission the
network accepted (whether or not it later reverts), left unincremented on a
pre-acceptance error (re-synchronized from the pending-nonce view instead,
kept unchanged when that re-synchronization itself fails), so after the run
the cursor has advanced by exactly the number of network-accepted
submissions — provided each re-synchronization answer reflects the true
pending-nonce view (`resyncFaithful`). -/
theorem claim1_nonce_cursor_advance (certs : List Cert) (n0 : Nat)
    (env : Nat → ChainEvent)
    (hfaithful : ∀ i, i < certs.length → resyncFaithful env n0 i = true) :
    (issueBatch certs n0 env).nonce = n0 + acceptedBefore env certs.length := by
  have h := issueBatchGo_nonce env n0 certs 0
    { nonce := n0, results := [], succeeded := 0, failed := 0 }
    (by simp [acceptedBefore])
    (fun j h1 h2 => hfaithful j (by omega))
  simpa [issueBatch] using h

/-- Witness for C1: a three-record batch with one pre-acceptance failure
whose recovery fetch returns the true pending nonce; the cursor advances by
the two acceptances, from 5 to 7. -/
theorem claim1_nonce_cursor_advance_witness :
    (∀ i, i < 3 → resyncFaithful envW1 5 i = true) ∧
    (issueBatch [cAlice, cBob, cWithId] 5 envW1).nonce = 5 + acceptedBefore envW1 3 ∧
    acceptedBefore envW1 3 = 2 :=
  ⟨by decide, claim1_nonce_cursor_advance [cAlice, cBob, cWithId] 5 envW1 (by decide),
    by decide⟩

/-- C2 counterexample: a single record is accepted by the network and its
confirmation wait fails; the claim says the only cursor change is the single
increment (5 becomes 6), but the catch handler re-synchronizes from the
network, and the cursor ends at the re-fetched value 42. -/
theorem claim2_counterexample :
    (issueBatch [cAlice] 5
        (fun _ => ChainEvent.reverted "0xdead" "execution reverted" (some 42))).nonce = 42 ∧
    42 ≠ 5 + 1 :=
  ⟨rfl, by decide⟩

/-- C2 amended: on a record that was accepted but whose confirmation wait
fails, the cursor is incremented at acceptance and then re-synchronized from
the network pending-nonce view by the same catch handler that serves
pre-acceptance errors; the incremented value survives only when the re-fetch
itself fails.  The record still resolves to a single failed outcome. -/
theorem claim2_amended (c : Cert) (n0 : Nat) (h reason : String) (r : Option Nat) :
    (∀ (i : Nat) (st : IssueBatchState),
      (issueBatchStep i c (ChainEvent.reverted h reason r) st).nonce =
        r.getD (st.nonce + 1)) ∧
    (issueBatch [c] n0 (fun _ => ChainEvent.reverted h reason r)).nonce = r.getD (n0 + 1) ∧
    (issueBatch [c] n0 (fun _ => ChainEvent.reverted h reason r)).results =
      [{ index := 0, certId := c.certId, status := "failed", error := some reason }] := by
  refine ⟨fun i st => ?_, ?_, ?_⟩ <;> cases r <;> rfl

/-- C6: `issueBatch` produces exactly one result per input record, in order
(the loop never aborts over a failure), and each result is exactly one of
success — carrying transaction hash, block number and gas used — or failed —
carrying an error reason. -/
theorem claim6_one_terminal_outcome_per_record (certs : List Cert) (n0 : Nat)
    (env : Nat → ChainEvent) :
    (issueBatch certs n0 env).results.length = certs.length ∧
    (∀ i, (issueBatch certs n0 env).results[i]? =
      (certs[i]?).map (fun c => txResultOf i c (env i))) ∧
    (∀ i c e,
      ((txResultOf i c e).status = "success" ∧ (txResultOf i c e).txHash.isSome ∧
        (txResultOf i c e).blockNumber.isSome ∧ (txResultOf i c e).gasUsed.isSome ∧
        (txResultOf i c e).error = none) ∨
      ((txResultOf i c e).status = "failed" ∧ (txResultOf i c e).txHash = none ∧
        (txResultOf i c e).blockNumber = none ∧ (txResultOf i c e).gasUsed = none ∧
        (txResultOf i c e).error.isSome)) := by
  refine ⟨issueBatch_results_length certs n0 env,
    fun i => issueBatch_results_getElem? certs n0 env i, ?_⟩
  intro i c e
  cases e with
  | confirmed h b g => left; simp [txResultOf]
  | rejected reason r => right; simp [txResultOf]
  | reverted h reason r => right; simp [txResultOf]

/-- C7 counterexample: the identifier generated for chain total 0 in year
2026 from the random draw "0.abcdefgh" is CERT-2026-001-ABC, whose random
suffix has three characters, not four — `substring(2, 5)` takes three
UTF-16 units. -/
theorem claim7_counterexample :
    generateCertificateId idEnvCex = "CERT-2026-001-ABC" ∧
    hasCertIdFormat4 (generateCertificateId idEnvCex) = false := by
  exact ⟨rfl, by decide⟩

/-- C7 amended: every generated identifier is CERT-(year)-(seq)-(rand)
where seq is the zero-padded (width 3) on-chain total plus one and rand is
an AT MOST THREE character uppercased random suffix. -/
theorem claim7_amended (env : IdEnv) :
    ∃ rand : String, rand.length ≤ 3 ∧
      generateCertificateId env =
        "CERT-" ++ toString env.year ++ "-" ++
          padStart3 (toString (env.totalCertificates + 1)) ++ "-" ++ rand := by
  refine ⟨jsSub25Upper env.mathRandom36, ?_, rfl⟩
  have h1 : (jsSub25Upper env.mathRandom36).length
      = (((env.mathRandom36.data.drop 2).take 3).map Char.toUpper).length := rfl
  rw [h1, List.length_map, List.length_take]
  omega

/-- C9: the generating_ids phase never reassigns an existing (truthy)
certificate identifier, and running the phase a second time — with any
id-generation environment — changes nothing, because generated identifiers
are nonempty. -/
theorem claim9_generating_ids_idempotent (e1 e2 : Nat → IdEnv) (certs : List Cert) :
    (∀ (i : Nat) (c : Cert), certs[i]? = some c → strFalsy c.certId = false →
      (generateIdsPhase e1 certs)[i]? = some c) ∧
    generateIdsPhase e2 (generateIdsPhase e1 certs) = generateIdsPhase e1 certs := by
  constructor
  · intro i c hc hfalsy
    rw [generateIdsPhase_getElem?, hc]
    simp [hfalsy]
  · apply List.ext_getElem?
    intro i
    rw [generateIdsPhase_getElem? e2, generateIdsPhase_getElem? e1]
    cases hc : certs[i]? with
    | none => rfl
    | some c =>
      by_cases hfalsy : strFalsy c.certId
      · have hne : strFalsy (some (generateCertificateId (e1 i))) = false := by
          simp [strFalsy, generateCertificateId_ne_empty (e1 i)]
        simp [hfalsy, hne]
      · simp [hfalsy]

/-- Witness for C9: a record that already carries an identifier passes the
generating_ids phase unchanged. -/
theorem claim9_generating_ids_idempotent_witness :
    (generateIdsPhase idEnvW [cWithId])[0]? = some cWithId :=
  (claim9_generating_ids_idempotent idEnvW idEnvW [cWithId]).1 0 cWithId rfl (by decide)

theorem compileResults_getElem? (certs : List Cert) (bc : List TxResult)
    (prs : List PdfResult) (qrs : List QrResult) (i : Nat) :
    (compileResults certs bc prs qrs)[i]? =
      (certs[i]?).map (compileRecord bc prs qrs i) := by
  unfold compileResults
  rw [mapWithIndexFrom_getElem?]
  simp

theorem compileRecord_row (bc : List TxResult) (prs : List PdfResult)
    (qrs : List QrResult) (i : Nat) (c : Cert) :
    (compileRecord bc prs qrs i c).row = c._row := rfl

theorem compileRecord_bcStatus (bc : List TxResult) (prs : List PdfResult)
    (qrs : List QrResult) (i : Nat) (c : Cert) :
    (compileRecord bc prs qrs i c).bcStatus =
      jsStrOr ((bc[i]?).map (fun t => t.status)) "skipped" := rfl

theorem compileRecord_qrStatus (bc : List TxResult) (prs : List PdfResult)
    (qrs : List QrResult) (i : Nat) (c : Cert) :
    (compileRecord bc prs qrs i c).qrStatus =
      jsStrOr ((qrs.find? (fun q => q.certId = c.certId)).map (fun q => q.status))
        "skipped" := rfl

theorem pipelineCerts2_length (env : PipelineEnv) (records : List Cert) :
    (pipelineCerts2 env records).length = records.length := by
  rw [pipelineCerts2, uploadPhase_length, pipelineCerts1, generateIdsPhase_length]

theorem pipelineCerts2_row (env : PipelineEnv) (records : List Cert) (i : Nat) :
    ((pipelineCerts2 env records)[i]?).map (fun c => c._row) =
      (records[i]?).map (fun c => c._row) := by
  rw [pipelineCerts2, uploadPhase_row, pipelineCerts1, generateIdsPhase_row]

theorem map_const_getElem?_eq {l1 : List α} {l2 : List β}
    (hlen : l1.length = l2.length) (a : γ) (i : Nat) :
    (l1[i]?).map (fun _ => a) = (l2[i]?).map (fun _ => a) := by
  by_cases h : i < l1.length
  · rw [List.getElem?_eq_getElem h, List.getElem?_eq_getElem (by omega)]
    rfl
  · rw [List.getElem?_eq_none (by omega), List.getElem?_eq_none (by omega)]
    rfl

/-- The chain status reported in a compiled record is exactly determined by
that record's chain event, for every record of the list handed to
`issueBatch`. -/
theorem compile_bcStatus_of_issueBatch (certs : List Cert) (n0 : Nat)
    (chainEnv : Nat → ChainEvent) (prs : List PdfResult) (qrs : List QrResult)
    (i : Nat) :
    ((compileResults certs (issueBatch certs n0 chainEnv).results prs qrs)[i]?).map
        (fun r => r.bcStatus) =
      (certs[i]?).map (fun _ => chainStatusOf (chainEnv i)) := by
  rw [compileResults_getElem?, Option.map_map]
  cases hc : certs[i]? with
  | none => rfl
  | some c =>
    simp only [Option.map_some', Function.comp]
    rw [compileRecord_bcStatus, issueBatch_results_getElem?, hc]
    simp [jsStrOr, txResultOf_status, chainStatusOf_ne_empty (chainEnv i)]

theorem pipeline_row (env : PipelineEnv) (records : List Cert) (i : Nat) :
    ((processPipeline env records).results[i]?).map (fun r => r.row) =
      (records[i]?).map (fun c => c._row) := by
  rw [processPipeline_results, compileResults_getElem?, Option.map_map]
  cases h2 : (pipelineCerts2 env records)[i]? with
  | none =>
    have hlen := pipelineCerts2_length env records
    have hr : records[i]? = none := by
      rw [List.getElem?_eq_none]
      rw [List.getElem?_eq_none_iff] at h2
      omega
    rw [hr]
    rfl
  | some c =>
    have := pipelineCerts2_row env records i
    rw [h2] at this
    simp only [Option.map_some', Function.comp, compileRecord_row]
    exact this

-- ── Lemmas: membership for the QR join ──────────────────────────────────────

theorem zip_getElem?_eq_some (l1 : List α) (l2 : List β) :
    ∀ (i : Nat) (p : α × β), (l1.zip l2)[i]? = some p →
      l1[i]? = some p.1 ∧ l2[i]? = some p.2 := by
  induction l1 generalizing l2 with
  | nil => intro i p h; simp at h
  | cons a as ih =>
    intro i p h
    cases l2 with
    | nil => simp at h
    | cons b bs =>
      cases i with
      | zero =>
        simp only [List.zip_cons_cons, List.getElem?_cons_zero, Option.some_inj] at h
        subst h
        exact ⟨by simp, by simp⟩
      | succ i =>
        simp only [List.zip_cons_cons, List.getElem?_cons_succ] at h ⊢
        exact ih bs i p h

theorem filterByChainSuccess_mem (certs : List Cert) (bc : List TxResult) (c : Cert)
    (hc : c ∈ filterByChainSuccess certs bc) :
    ∃ (j : Nat) (t : TxResult),
      certs[j]? = some c ∧ bc[j]? = some t ∧ t.status = "success" := by
  unfold filterByChainSuccess at hc
  obtain ⟨p, hp, hpc⟩ := List.mem_map.mp hc
  have hf := List.mem_filter.mp hp
  obtain ⟨j, hj⟩ := List.mem_iff_getElem?.mp hf.1
  obtain ⟨h1, h2⟩ := zip_getElem?_eq_some _ _ j p hj
  refine ⟨j, p.2, ?_, h2, ?_⟩
  · rw [h1, hpc]
  · simpa using hf.2

theorem bulkGenerateQR_mem_certId (certs : List Cert) (qrEnv : Nat → QrOutcome)
    (q : QrResult) (hq : q ∈ bulkGenerateQR certs qrEnv) :
    ∃ c ∈ certs, q.certId = c.certId := by
  obtain ⟨j, c, hc, hqe⟩ := mem_mapWithIndexFrom hq
  refine ⟨c, List.getElem?_mem hc, ?_⟩
  rw [hqe]
  cases qrEnv (0 + j) <;> rfl

theorem uploadPhase_map_certId (sha : List Nat → String) (storeEnv : Nat → StoreOutcome)
    (certs : List Cert) (prs : List PdfResult) :
    (uploadPhase sha storeEnv certs prs).map Cert.certId = certs.map Cert.certId := by
  apply List.ext_getElem?
  intro i
  rw [List.getElem?_map, List.getElem?_map]
  exact uploadPhase_certId sha storeEnv certs prs i

theorem nodup_getElem?_eq {l : List α} (hnd : l.Nodup) {i j : Nat} {x : α}
    (hi : l[i]? = some x) (hj : l[j]? = some x) : i = j := by
  have hlt : i < l.length := by
    by_contra hge
    rw [List.getElem?_eq_none (by omega)] at hi
    exact Option.noConfusion hi
  exact List.getElem?_inj hlt hnd (hi.trans hj.symm)

/-- C3 counterexample: a record whose PDF generation failed is nonetheless
submitted to the chain, and its final result carries a full, non-empty chain
outcome (transaction hash, block number, gas) next to the failed document
status — the claimed document-success gate before chain submission does not
exist in `processPipeline`. -/
theorem claim3_counterexample :
    (processPipeline envC3 [cAlice]).results.map
        (fun r => (r.pdfStatus, r.txHash, r.blockNumber, r.gasUsed)) =
      [("failed", some "0xfeed", some 123, some 21000)] := by decide

/-- C3 amended: `processPipeline` submits every record of the batch to the
chain phase regardless of its document outcome — the chain status of the
i-th final result is exactly determined by the chain event for index i,
with no document-stage eligibility gate. -/
theorem claim3_amended (env : PipelineEnv) (records : List Cert) :
    (processPipeline env records).results.map (fun r => r.bcStatus) =
      mapWithIndexFrom (fun i _ => chainStatusOf (env.chainEnv i)) 0 records := by
  apply List.ext_getElem?
  intro i
  rw [List.getElem?_map, mapWithIndexFrom_getElem?, Nat.zero_add,
    processPipeline_results, pipelineBc, compile_bcStatus_of_issueBatch]
  exact map_const_getElem?_eq (pipelineCerts2_length env records) _ i

/-- C4 (code bug): for any record whose PDF stage succeeded, the
uploading-content loop raises before computing any digest, because
`computeContentHash` is not among the names `ipfsService` exports; the
record leaves the phase with an empty content identifier and the TypeError
message recorded, its `documentHash` never set — no matter how the content
store would have behaved. -/
theorem claim4_content_hash_uncomputable (sha : List Nat → String)
    (storeEnv : Nat → StoreOutcome) (certs : List Cert) (pdfResults : List PdfResult)
    (i : Nat) (c : Cert) (pr : PdfResult)
    (hc : certs[i]? = some c) (hp : pdfResults[i]? = some pr)
    (hs : pr.status = "success") (hb : pr.buffer.isSome = true) :
    "computeContentHash" ∉ ipfsServiceExports ∧
    (uploadPhase sha storeEnv certs pdfResults)[i]? =
      some { c with ipfsHash := some "", ipfsError := some "ipfsService.computeContentHash is not a function" } := by
  constructor
  · decide
  · rw [uploadPhase_getElem?, hc]
    have hmem : ("computeContentHash" ∈ ipfsServiceExports) = False := by
      simp only [eq_iff_iff, iff_false]
      decide
    simp [hp, uploadPhaseRecord, hs, hb, hmem]

/-- Witness for C4: one record with a rendered PDF and a healthy content
store still comes out of the uploading phase with an empty content id, the
TypeError recorded, and no digest. -/
theorem claim4_content_hash_uncomputable_witness :
    (uploadPhase (fun _ => "feedbead")
        (fun _ => StoreOutcome.stored "QmXYZ" true none) [cAlice] [pdfOkSample])[0]? =
      some { cAlice with ipfsHash := some "", ipfsError := some "ipfsService.computeContentHash is not a function" } :=
  (claim4_content_hash_uncomputable (fun _ => "feedbead")
    (fun _ => StoreOutcome.stored "QmXYZ" true none) [cAlice] [pdfOkSample]
    0 cAlice pdfOkSample rfl rfl rfl rfl).2

/-- C5: for any validated batch, the pipeline (absent a phase-level
exception, which the model makes explicit by being total) ends with status
"completed" — even when every individual record failed at every stage —
with exactly one result entry per processed record, each carrying the
1-based original input row of its record; and the records the job processes
are exactly the zero-error rows, annotated with their original 1-based
position (join integrity back to the raw input). -/
theorem claim5_completed_job_row_integrity (dateOk : String → Bool)
    (env : PipelineEnv) (raw : List Cert) :
    (processPipeline env (validateBatch dateOk raw).validRecords).status = "completed" ∧
    (processPipeline env (validateBatch dateOk raw).validRecords).results.length =
      (validateBatch dateOk raw).validRecords.length ∧
    (∀ i : Nat,
      ((processPipeline env (validateBatch dateOk raw).validRecords).results[i]?).map
          (fun r => r.row) =
        ((validateBatch dateOk raw).validRecords[i]?).map (fun c => c._row)) ∧
    (validateBatch dateOk raw).validRecords = validRecordsSpec dateOk 0 raw := by
  refine ⟨processPipeline_status env _, ?_, fun i => pipeline_row env _ i, ?_⟩
  · rw [processPipeline_results, compileResults_length, pipelineCerts2_length]
  · simp only [validateBatch]
    rw [validateBatchGo_validRecords]
    simp

/-- C8 counterexample: when two records carry the same certificate
identifier (the generator draws the same sequence and random suffix — the
id scheme does not guarantee uniqueness), the by-certId join of the QR phase
attaches the successful record's QR artifact to the record whose chain stage
FAILED: its final result reports a generated QR artifact. -/
theorem claim8_counterexample :
    (processPipeline envC8 [cAlice, cBob]).results.map
        (fun r => (r.bcStatus, r.qrStatus)) =
      [("success", "success"), ("failed", "success")] := by decide

/-- C8 amended: provided the certificate identifiers assigned in phase 1
are pairwise distinct, the eligibility gate holds: only chain-successful
records enter the QR phase, and every record whose chain status is not
"success" reports a skipped QR artifact in its final result. -/
theorem claim8_qr_gate_distinct_ids (env : PipelineEnv) (records : List Cert)
    (hnodup : ((generateIdsPhase env.idEnv records).map Cert.certId).Nodup) :
    ∀ (i : Nat) (r : RecordResult),
      (processPipeline env records).results[i]? = some r →
      r.bcStatus ≠ "success" → r.qrStatus = "skipped" := by
  intro i r hr hbs
  have hnodup2 : ((pipelineCerts2 env records).map Cert.certId).Nodup := by
    rw [pipelineCerts2, uploadPhase_map_certId]
    exact hnodup
  rw [processPipeline_results, compileResults_getElem?] at hr
  cases h2 : (pipelineCerts2 env records)[i]? with
  | none => rw [h2] at hr; simp at hr
  | some c =>
    rw [h2] at hr
    simp only [Option.map_some', Option.some_inj] at hr
    have hbci : r.bcStatus = chainStatusOf (env.chainEnv i) := by
      rw [← hr, compileRecord_bcStatus, pipelineBc, issueBatch_results_getElem?, h2]
      simp [jsStrOr, txResultOf_status, chainStatusOf_ne_empty (env.chainEnv i)]
    have hfind :
        (pipelineQrResults env records).find? (fun q => q.certId = c.certId) = none := by
      rw [List.find?_eq_none]
      intro q hq
      obtain ⟨c', hc'mem, hqid⟩ :=
        bulkGenerateQR_mem_certId (pipelineSuccessful env records) env.qrEnv q
          (by rwa [pipelineQrResults] at hq)
      obtain ⟨j, t, hcj, htj, hts⟩ :=
        filterByChainSuccess_mem (pipelineCerts2 env records)
          (pipelineBc env records).results c' (by rwa [pipelineSuccessful] at hc'mem)
      have htj2 : (pipelineBc env records).results[j]? =
          some (txResultOf j c' (env.chainEnv j)) := by
        rw [pipelineBc, issueBatch_results_getElem?, hcj]
        rfl
      rw [htj] at htj2
      have hteq : t = txResultOf j c' (env.chainEnv j) := by
        exact Option.some_inj.mp htj2
      have htsj : chainStatusOf (env.chainEnv j) = "success" := by
        rw [hteq, txResultOf_status] at hts
        exact hts
      have hij : i ≠ j := by
        intro he
        apply hbs
        rw [hbci, he, htsj]
      simp only [decide_eq_true_eq]
      intro hqc
      apply hij
      have hci : ((pipelineCerts2 env records).map Cert.certId)[i]? = some c.certId := by
        rw [List.getElem?_map, h2]
        rfl
      have hcjj : ((pipelineCerts2 env records).map Cert.certId)[j]? = some c.certId := by
        rw [List.getElem?_map, hcj]
        simp only [Option.map_some']
        rw [hqc] at hqid
        rw [hqid]
      exact nodup_getElem?_eq hnodup2 hci hcjj
    rw [← hr, compileRecord_qrStatus, hfind]
    rfl

/-- Witness for C8 (amended): with distinct identifiers, the record that
failed at the chain stage reports a skipped QR artifact. -/
theorem claim8_qr_gate_distinct_ids_witness :
    ((processPipeline envW8 [cAlice, cBob]).results[1]?).map (fun r => r.qrStatus) =
      some "skipped" := by
  cases hr : (processPipeline envW8 [cAlice, cBob]).results[1]? with
  | none => exact absurd hr (by decide)
  | some r =>
    have hb : ((processPipeline envW8 [cAlice, cBob]).results[1]?).map
        (fun x => x.bcStatus) = some "failed" := by decide
    rw [hr] at hb
    simp only [Option.map_some', Option.some_inj] at hb
    have hq := claim8_qr_gate_distinct_ids envW8 [cAlice, cBob] (by decide) 1 r hr
      (by rw [hb]; decide)
    simp [hq]

/-- C10: cross-row duplicate student ids and duplicate emails surface only
as warnings, never as errors — the batch error list is exactly the
concatenation of the per-record errors, which never inspect other rows — a
zero-error record enters `validRecords` no matter how many warnings it
carries (the valid-record list is exactly the zero-error rows), and any
later row repeating an earlier row's truthy student id (resp. email) gets a
duplicate warning naming its 1-based row. -/
theorem claim10_duplicates_warn_not_error (dateOk : String → Bool) (raw : List Cert) :
    (validateBatch dateOk raw).errors = errorsSpec dateOk 0 raw ∧
    (validateBatch dateOk raw).validRecords = validRecordsSpec dateOk 0 raw ∧
    (∀ (j k : Nat) (cj ck : Cert) (s : String),
      j < k → raw[j]? = some cj → raw[k]? = some ck →
      cj.studentId = some s → ck.studentId = some s → s ≠ "" →
      ∃ prev, Issue.mk "studentId" (dupIdMessage s prev) (k + 1) ∈
        (validateBatch dateOk raw).warnings) ∧
    (∀ (j k : Nat) (cj ck : Cert) (s : String),
      j < k → raw[j]? = some cj → raw[k]? = some ck →
      cj.email = some s → ck.email = some s → s ≠ "" →
      ∃ prev, Issue.mk "email" (dupEmailMessage s prev) (k + 1) ∈
        (validateBatch dateOk raw).warnings) := by
  refine ⟨?_, ?_, ?_, ?_⟩
  · simp only [validateBatch]
    rw [validateBatchGo_errors]
    simp
  · simp only [validateBatch]
    rw [validateBatchGo_validRecords]
    simp
  · intro j k cj ck s hjk hj hk hcj hck hs
    have hklen : k < raw.length := by
      rcases List.getElem?_eq_some.mp hk with ⟨h, _⟩
      exact h
    have hsplit : raw = raw.take k ++ (ck :: raw.drop (k + 1)) := by
      conv_lhs => rw [← List.take_append_drop k raw]
      congr 1
      rw [List.drop_eq_getElem_cons hklen]
      congr 1
      rcases List.getElem?_eq_some.mp hk with ⟨h, he⟩
      exact he
    have htakelen : (raw.take k).length = k := by
      rw [List.length_take]
      omega
    simp only [validateBatch]
    rw [hsplit, validateBatchGo_append, htakelen]
    set stk := validateBatchGo dateOk (raw.take k) 0
      { seenIds := [], seenEmails := [], errors := [], warnings := [],
        validRecords := [], invalidRecords := [] } with hstk
    have hhas : mapHas stk.seenIds s := by
      refine validateBatchGo_seenIds_of_mem dateOk s (raw.take k) 0 _ j cj ?_ hcj hs
      rw [List.getElem?_take, if_pos hjk]
      exact hj
    refine ⟨(mapGet stk.seenIds s).getD 0, ?_⟩
    have hstep : Issue.mk "studentId" (dupIdMessage s ((mapGet stk.seenIds s).getD 0))
        (k + 1) ∈ (validateBatchStep dateOk ck k stk).warnings := by
      rw [validateBatchStep_warnings, hck, dupCheck_warn _ _ _ _ _ hs hhas]
      simp
    have hgo : validateBatchGo dateOk (ck :: raw.drop (k + 1)) (0 + k) stk =
        validateBatchGo dateOk (raw.drop (k + 1)) (k + 1)
          (validateBatchStep dateOk ck k stk) := by
      rw [Nat.zero_add]
      rfl
    rw [hgo]
    exact validateBatchGo_warnings_mono dateOk (raw.drop (k + 1)) (k + 1) _ _ hstep
  · intro j k cj ck s hjk hj hk hcj hck hs
    have hklen : k < raw.length := by
      rcases List.getElem?_eq_some.mp hk with ⟨h, _⟩
      exact h
    have hsplit : raw = raw.take k ++ (ck :: raw.drop (k + 1)) := by
      conv_lhs => rw [← List.take_append_drop k raw]
      congr 1
      rw [List.drop_eq_getElem_cons hklen]
      congr 1
      rcases List.getElem?_eq_some.mp hk with ⟨h, he⟩
      exact he
    have htakelen : (raw.take k).length = k := by
      rw [List.length_take]
      omega
    simp only [validateBatch]
    rw [hsplit, validateBatchGo_append, htakelen]
    set stk := validateBatchGo dateOk (raw.take k) 0
      { seenIds := [], seenEmails := [], errors := [], warnings := [],
        validRecords := [], invalidRecords := [] } with hstk
    have hhas : mapHas stk.seenEmails s := by
      refine validateBatchGo_seenEmails_of_mem dateOk s (raw.take k) 0 _ j cj ?_ hcj hs
      rw [List.getElem?_take, if_pos hjk]
      exact hj
    refine ⟨(mapGet stk.seenEmails s).getD 0, ?_⟩
    have hstep : Issue.mk "email" (dupEmailMessage s ((mapGet stk.seenEmails s).getD 0))
        (k + 1) ∈ (validateBatchStep dateOk ck k stk).warnings := by
      rw [validateBatchStep_warnings, hck, dupCheck_warn _ _ _ _ _ hs hhas]
      simp
    have hgo : validateBatchGo dateOk (ck :: raw.drop (k + 1)) (0 + k) stk =
        validateBatchGo dateOk (raw.drop (k + 1)) (k + 1)
          (validateBatchStep dateOk ck k stk) := by
      rw [Nat.zero_add]
      rfl
    rw [hgo]
    exact validateBatchGo_warnings_mono dateOk (raw.drop (k + 1)) (k + 1) _ _ hstep

/-- Witness for C10: two records sharing a student id and an email; the
duplicate warnings for row 3 are present, and the error list and valid
records match the per-record specification. -/
theorem claim10_duplicates_warn_not_error_witness :
    (∃ prev, Issue.mk "studentId" (dupIdMessage "S001" prev) 3 ∈
      (validateBatch dateOkW [cAlice, cBob, cAliceTwin]).warnings) ∧
    (∃ prev, Issue.mk "email" (dupEmailMessage "alice@example.com" prev) 3 ∈
      (validateBatch dateOkW [cAlice, cBob, cAliceTwin]).warnings) ∧
    (validateBatch dateOkW [cAlice, cBob, cAliceTwin]).errors =
      errorsSpec dateOkW 0 [cAlice, cBob, cAliceTwin] :=
  ⟨(claim10_duplicates_warn_not_error dateOkW [cAlice, cBob, cAliceTwin]).2.2.1
      0 2 cAlice cAliceTwin "S001" (by decide) rfl rfl rfl rfl (by decide),
    (claim10_duplicates_warn_not_error dateOkW [cAlice, cBob, cAliceTwin]).2.2.2
      0 2 cAlice cAliceTwin "alice@example.com" (by decide) rfl rfl rfl rfl (by decide),
    (claim10_duplicates_warn_not_error dateOkW [cAlice, cBob, cAliceTwin]).1⟩

end Edulocka
